import Mathlib

/-
Verification of the chat session view of the fork-gemini-deepresearch
examples.  The repository holds three front-end variants of the same
chat loop:

* Part000   (src/unnamed/part_000): streaming variant with an empty-input
  guard, updating the last message content in place.
* Stream003 (src/example/003-stream/vite-frontend/src/App.jsx): streaming
  variant without a guard, replacing the last message by a fresh object.
* Vite001   (src/example/001-vite/README.md, embedded App.jsx): whole
  response variant, appending the assistant reply after resolution.

Transcript messages carry the literal role strings of the source,
namely "user" and "ai".  Byte chunks are modelled by their decoded
text, read errors by an explicit event, and each setMessages call by
one state in a trace.
-/

/-- A transcript entry as built by the source: a role string and a
content string.  The source only ever writes the role literals "user"
and "ai". -/
structure Message where
  role : String
  content : String
deriving DecidableEq, Repr

/-- The component state: the input field and the messages array. -/
structure ChatState where
  input : String
  messages : List Message
deriving DecidableEq, Repr

/-- One result of reader.read(): either a chunk (modelled by its decoded
text) or a read failure, which makes the await throw. -/
inductive ReadEvent where
  | chunk (s : String)
  | errored
deriving DecidableEq, Repr

/-- Outcome of the whole-response fetch: the parsed reply field, or a
rejection of fetch or of res.json(). -/
inductive FetchOutcome where
  | ok (reply : String)
  | failed
deriving DecidableEq, Repr

/-- Embeds the update statement of part_000, copy[copy.length - 1].content
= aiText, on the copied array: the last element keeps its role and gets
content t; every other element is untouched.  The code only runs it on a
non-empty array (two entries were appended just before). -/
def setContentLast (t : String) : List Message → List Message
  | [] => []
  | [m] => [⟨m.role, t⟩]
  | m :: m2 :: ms => m :: setContentLast t (m2 :: ms)

/-- Embeds the update statement of 003-stream, copy[copy.length - 1] =
(role ai, content aiText): the last element is replaced by a freshly
built ai message; every other element is untouched. -/
def replaceLast (t : String) : List Message → List Message
  | [] => []
  | [_] => [⟨"ai", t⟩]
  | m :: m2 :: ms => m :: replaceLast t (m2 :: ms)

/-- Concatenation of a list of decoded chunks, in arrival order. -/
def concatChunks : List String → String
  | [] => ""
  | c :: cs => c ++ concatChunks cs

/-- The successive accumulator values aiText takes while consuming the
chunks, starting from acc: after the k-th chunk the value is acc followed
by the first k chunks. -/
def cumConcats (acc : String) : List String → List String
  | [] => []
  | c :: cs => (acc ++ c) :: cumConcats (acc ++ c) cs

/-- The chunks actually delivered by a stream: everything before the
first read failure; a failure aborts the loop. -/
def received : List ReadEvent → List String
  | [] => []
  | .errored :: _ => []
  | .chunk c :: es => c :: received es

namespace Part000

/-- The while-true read loop of sendMessage in part_000: on each chunk,
aiText grows by the decoded value and setMessages rewrites the content of
the last element; the returned list holds the messages array after each
setMessages call, in order.  A read failure throws out of the loop with
no further update; done ends the loop. -/
def readLoop (aiText : String) (ms : List Message) : List ReadEvent → List (List Message)
  | [] => []
  | .errored :: _ => []
  | .chunk c :: es =>
      let aiText2 := aiText ++ c
      let ms2 := setContentLast aiText2 ms
      ms2 :: readLoop aiText2 ms2 es

/-- The trace of states produced by sendMessage of part_000 from state
st, one per setMessages call: empty input returns at the guard with no
update; otherwise the user entry and an empty ai entry are appended and
the input is cleared, then one state per received chunk. -/
def sendMessageTrace (st : ChatState) (es : List ReadEvent) : List ChatState :=
  if st.input = "" then []
  else
    let ms1 := st.messages ++ [⟨"user", st.input⟩, ⟨"ai", ""⟩]
    ⟨"", ms1⟩ :: (readLoop "" ms1 es).map (fun ms => (⟨"", ms⟩ : ChatState))

/-- The state after sendMessage of part_000 has finished (normally or by
an unhandled throw): the last state of the trace, or st when the guard
returned. -/
def sendMessage (st : ChatState) (es : List ReadEvent) : ChatState :=
  (sendMessageTrace st es).getLastD st

/-- Body message field of the fetch call issued by part_000, none when
the guard returns before fetch. -/
def fetchBody (st : ChatState) : Option String :=
  if st.input = "" then none else some st.input

/-- Convenience form over plain chunk lists (error-free streams). -/
def sendMessageChunks (st : ChatState) (cs : List String) : ChatState :=
  sendMessage st (cs.map ReadEvent.chunk)

/-- Trace form over plain chunk lists (error-free streams). -/
def sendMessageChunksTrace (st : ChatState) (cs : List String) : List ChatState :=
  sendMessageTrace st (cs.map ReadEvent.chunk)

end Part000

namespace Stream003

/-- The while-true read loop of sendMessage in 003-stream: as in
part_000 except that the last element is replaced by a freshly built ai
message holding the accumulator. -/
def readLoop (aiText : String) (ms : List Message) : List ReadEvent → List (List Message)
  | [] => []
  | .errored :: _ => []
  | .chunk c :: es =>
      let aiText2 := aiText ++ c
      let ms2 := replaceLast aiText2 ms
      ms2 :: readLoop aiText2 ms2 es

/-- The trace of states produced by sendMessage of 003-stream: this
variant has no empty-input guard, so the two entries are appended for
every input, the empty string included. -/
def sendMessageTrace (st : ChatState) (es : List ReadEvent) : List ChatState :=
  let ms1 := st.messages ++ [⟨"user", st.input⟩, ⟨"ai", ""⟩]
  ⟨"", ms1⟩ :: (readLoop "" ms1 es).map (fun ms => (⟨"", ms⟩ : ChatState))

/-- The state after sendMessage of 003-stream has finished. -/
def sendMessage (st : ChatState) (es : List ReadEvent) : ChatState :=
  (sendMessageTrace st es).getLastD st

/-- Body message field of the fetch call issued by 003-stream; the call
is always issued. -/
def fetchBody (st : ChatState) : Option String :=
  some st.input

/-- Convenience form over plain chunk lists (error-free streams). -/
def sendMessageChunks (st : ChatState) (cs : List String) : ChatState :=
  sendMessage st (cs.map ReadEvent.chunk)

/-- Trace form over plain chunk lists (error-free streams). -/
def sendMessageChunksTrace (st : ChatState) (cs : List String) : List ChatState :=
  sendMessageTrace st (cs.map ReadEvent.chunk)

end Stream003

namespace Vite001

/-- The trace of states produced by sendMessage of the whole-response
variant (App.jsx of the 001-vite README): after the guard, the user
entry alone is appended and the input cleared; when the fetch and
res.json() resolve, a second update appends an ai entry holding the
reply; on rejection no further update happens. -/
def sendMessageTrace (st : ChatState) (o : FetchOutcome) : List ChatState :=
  if st.input = "" then []
  else
    let ms1 := st.messages ++ [⟨"user", st.input⟩]
    match o with
    | .ok reply => [⟨"", ms1⟩, ⟨"", ms1 ++ [⟨"ai", reply⟩]⟩]
    | .failed => [⟨"", ms1⟩]

/-- The state after sendMessage of the whole-response variant has
finished (normally or by an unhandled rejection). -/
def sendMessage (st : ChatState) (o : FetchOutcome) : ChatState :=
  (sendMessageTrace st o).getLastD st

/-- Body message field of the fetch call issued by the whole-response
variant, none when the guard returns before fetch. -/
def fetchBody (st : ChatState) : Option String :=
  if st.input = "" then none else some st.input

end Vite001

/-- Content of the last transcript entry, the empty string on an empty
transcript. -/
def lastContent (st : ChatState) : String :=
  (st.messages.getLastD ⟨"", ""⟩).content

/-- Reachable component states of the three variants: the initial empty
session, typing into the input field, and every intermediate state of a
sendMessage run (any stream outcome, any fetch outcome). -/
inductive Reach : ChatState → Prop where
  | init : Reach ⟨"", []⟩
  | typeInput (st : ChatState) (s : String) : Reach st → Reach ⟨s, st.messages⟩
  | part000 (st st2 : ChatState) (es : List ReadEvent) :
      Reach st → st2 ∈ Part000.sendMessageTrace st es → Reach st2
  | stream003 (st st2 : ChatState) (es : List ReadEvent) :
      Reach st → st2 ∈ Stream003.sendMessageTrace st es → Reach st2
  | vite001 (st st2 : ChatState) (o : FetchOutcome) :
      Reach st → st2 ∈ Vite001.sendMessageTrace st o → Reach st2

/-- Every entry carries one of the two role literals the source writes. -/
def rolesOK (ms : List Message) : Prop :=
  ∀ m ∈ ms, m.role = "user" ∨ m.role = "ai"

/-- One state update of the session view: either it appends entries at
the end, or it keeps the length, every entry but the last, and the role
of the last, changing at most the content of the last entry. -/
def frameStep (a b : ChatState) : Prop :=
  (∃ es, es ≠ [] ∧ b.messages = a.messages ++ es) ∨
  (b.messages.length = a.messages.length ∧
   b.messages.dropLast = a.messages.dropLast ∧
   (b.messages.getLastD ⟨"", ""⟩).role = (a.messages.getLastD ⟨"", ""⟩).role)

/-- The transcript alternates the role literals user and ai from index 0
and holds a whole number of turns. -/
def alternatesUA (ms : List Message) : Prop :=
  (∀ i (h : i < ms.length), (ms.get ⟨i, h⟩).role = if i % 2 = 0 then "user" else "ai") ∧
  ms.length % 2 = 0

/-- Transcripts made of whole turns: a user entry followed by an ai
entry, repeated. -/
inductive Alternating : List Message → Prop where
  | nil : Alternating []
  | pair (ms : List Message) (u a : Message) (hu : u.role = "user") (ha : a.role = "ai")
      (h : Alternating ms) : Alternating (ms ++ [u, a])


namespace Part000

/-- A sequence of completed, non-overlapping part_000 submits from a
state: each pair is an input typed into the field followed by the read
events of its stream. -/
def runSubmits (st : ChatState) : List (String × List ReadEvent) → ChatState
  | [] => st
  | (s, es) :: rest => runSubmits (sendMessage ⟨s, st.messages⟩ es) rest

end Part000

namespace Stream003

/-- A sequence of completed, non-overlapping 003-stream submits from a
state. -/
def runSubmits (st : ChatState) : List (String × List ReadEvent) → ChatState
  | [] => st
  | (s, es) :: rest => runSubmits (sendMessage ⟨s, st.messages⟩ es) rest

end Stream003

namespace Vite001

/-- A sequence of completed, non-overlapping whole-response submits from
a state: each pair is an input and the reply its fetch resolved with. -/
def runSubmits (st : ChatState) : List (String × String) → ChatState
  | [] => st
  | (s, r) :: rest => runSubmits (sendMessage ⟨s, st.messages⟩ (.ok r)) rest

end Vite001

/-! ### Basic lemmas about the list and string helpers -/

theorem getLastD_append_one {α : Type} (l : List α) (m d : α) :
    (l ++ [m]).getLastD d = m := by
  simp

theorem setContentLast_append (t : String) (ms : List Message) (m : Message) :
    setContentLast t (ms ++ [m]) = ms ++ [⟨m.role, t⟩] := by
  induction ms with
  | nil => rfl
  | cons a as ih =>
      cases as with
      | nil => rfl
      | cons b bs => simpa [setContentLast] using ih

theorem replaceLast_append (t : String) (ms : List Message) (m : Message) :
    replaceLast t (ms ++ [m]) = ms ++ [⟨"ai", t⟩] := by
  induction ms with
  | nil => rfl
  | cons a as ih =>
      cases as with
      | nil => rfl
      | cons b bs => simpa [replaceLast] using ih

theorem received_map_chunk (cs : List String) :
    received (cs.map ReadEvent.chunk) = cs := by
  induction cs with
  | nil => rfl
  | cons c cs ih => simpa [received] using ih

theorem received_fail (cs : List String) (junk : List ReadEvent) :
    received (cs.map ReadEvent.chunk ++ ReadEvent.errored :: junk) = cs := by
  induction cs with
  | nil => rfl
  | cons c cs ih => simpa [received] using ih

theorem cumConcats_getLastD {β : Type} (f : String → β) (cs : List String) (acc : String) :
    ((cumConcats acc cs).map f).getLastD (f acc) = f (acc ++ concatChunks cs) := by
  induction cs generalizing acc with
  | nil => simp [cumConcats, concatChunks, String.append_empty]
  | cons c cs ih =>
      simp only [cumConcats, concatChunks, List.map_cons, List.getLastD_cons]
      rw [ih (acc ++ c), String.append_assoc]

theorem cumConcats_eq_map_range (cs : List String) (acc : String) :
    cumConcats acc cs =
      (List.range cs.length).map (fun k => acc ++ concatChunks (cs.take (k + 1))) := by
  induction cs generalizing acc with
  | nil => rfl
  | cons c cs ih =>
      simp only [cumConcats, List.length_cons, List.range_succ_eq_map, List.map_cons,
        List.map_map, List.cons.injEq]
      refine ⟨by simp [concatChunks, String.append_empty], ?_⟩
      rw [ih (acc ++ c)]
      apply List.map_congr_left
      intro k _
      simp [Function.comp, concatChunks, String.append_assoc]

/-! ### Characterisation of the two streaming read loops -/

theorem part000_readLoop_eq (es : List ReadEvent) (acc : String)
    (base : List Message) (r x : String) :
    Part000.readLoop acc (base ++ [⟨r, x⟩]) es =
      (cumConcats acc (received es)).map (fun a => base ++ [⟨r, a⟩]) := by
  induction es generalizing acc x with
  | nil => rfl
  | cons e es ih =>
      cases e with
      | errored => rfl
      | chunk c =>
          simp only [Part000.readLoop, received, cumConcats, List.map_cons,
            setContentLast_append, List.cons.injEq]
          exact ⟨trivial, ih (acc ++ c) (acc ++ c)⟩

theorem stream003_readLoop_eq (es : List ReadEvent) (acc : String)
    (base : List Message) (m : Message) :
    Stream003.readLoop acc (base ++ [m]) es =
      (cumConcats acc (received es)).map (fun a => base ++ [⟨"ai", a⟩]) := by
  induction es generalizing acc m with
  | nil => rfl
  | cons e es ih =>
      cases e with
      | errored => rfl
      | chunk c =>
          simp only [Stream003.readLoop, received, cumConcats, List.map_cons,
            replaceLast_append, List.cons.injEq]
          exact ⟨trivial, ih (acc ++ c) ⟨"ai", acc ++ c⟩⟩

/-! ### Trace and final-state formulas for the three variants -/

theorem part000_trace_eq (st : ChatState) (es : List ReadEvent) (h : st.input ≠ "") :
    Part000.sendMessageTrace st es =
      ⟨"", st.messages ++ [⟨"user", st.input⟩, ⟨"ai", ""⟩]⟩ ::
        (cumConcats "" (received es)).map
          (fun a => ⟨"", st.messages ++ [⟨"user", st.input⟩, ⟨"ai", a⟩]⟩) := by
  simp only [Part000.sendMessageTrace, if_neg h]
  rw [show st.messages ++ [(⟨"user", st.input⟩ : Message), ⟨"ai", ""⟩] =
      (st.messages ++ [⟨"user", st.input⟩]) ++ [(⟨"ai", ""⟩ : Message)] by simp]
  simp only [part000_readLoop_eq, List.map_map]
  simp [Function.comp]

theorem stream003_trace_eq (st : ChatState) (es : List ReadEvent) :
    Stream003.sendMessageTrace st es =
      ⟨"", st.messages ++ [⟨"user", st.input⟩, ⟨"ai", ""⟩]⟩ ::
        (cumConcats "" (received es)).map
          (fun a => ⟨"", st.messages ++ [⟨"user", st.input⟩, ⟨"ai", a⟩]⟩) := by
  simp only [Stream003.sendMessageTrace]
  rw [show st.messages ++ [(⟨"user", st.input⟩ : Message), ⟨"ai", ""⟩] =
      (st.messages ++ [⟨"user", st.input⟩]) ++ [(⟨"ai", ""⟩ : Message)] by simp]
  simp only [stream003_readLoop_eq, List.map_map]
  simp [Function.comp]

theorem part000_final_eq (st : ChatState) (es : List ReadEvent) (h : st.input ≠ "") :
    Part000.sendMessage st es =
      ⟨"", st.messages ++ [⟨"user", st.input⟩, ⟨"ai", concatChunks (received es)⟩]⟩ := by
  have hmap := cumConcats_getLastD
    (fun a => (⟨"", st.messages ++ [⟨"user", st.input⟩, ⟨"ai", a⟩]⟩ : ChatState))
    (received es) ""
  simp only [Part000.sendMessage, part000_trace_eq st es h, List.getLastD_cons]
  simpa [String.empty_append] using hmap

theorem stream003_final_eq (st : ChatState) (es : List ReadEvent) :
    Stream003.sendMessage st es =
      ⟨"", st.messages ++ [⟨"user", st.input⟩, ⟨"ai", concatChunks (received es)⟩]⟩ := by
  have hmap := cumConcats_getLastD
    (fun a => (⟨"", st.messages ++ [⟨"user", st.input⟩, ⟨"ai", a⟩]⟩ : ChatState))
    (received es) ""
  simp only [Stream003.sendMessage, stream003_trace_eq st es, List.getLastD_cons]
  simpa [String.empty_append] using hmap

theorem part000_guard_eq (st : ChatState) (es : List ReadEvent) (h : st.input = "") :
    Part000.sendMessageTrace st es = [] ∧ Part000.sendMessage st es = st := by
  constructor
  · simp [Part000.sendMessageTrace, h]
  · simp [Part000.sendMessage, Part000.sendMessageTrace, h]

theorem vite001_guard_eq (st : ChatState) (o : FetchOutcome) (h : st.input = "") :
    Vite001.sendMessageTrace st o = [] ∧ Vite001.sendMessage st o = st := by
  constructor
  · simp [Vite001.sendMessageTrace, h]
  · simp [Vite001.sendMessage, Vite001.sendMessageTrace, h]

theorem vite001_trace_ok (st : ChatState) (reply : String) (h : st.input ≠ "") :
    Vite001.sendMessageTrace st (.ok reply) =
      [⟨"", st.messages ++ [⟨"user", st.input⟩]⟩,
       ⟨"", st.messages ++ [⟨"user", st.input⟩, ⟨"ai", reply⟩]⟩] := by
  simp [Vite001.sendMessageTrace, if_neg h]

theorem vite001_trace_failed (st : ChatState) (h : st.input ≠ "") :
    Vite001.sendMessageTrace st .failed = [⟨"", st.messages ++ [⟨"user", st.input⟩]⟩] := by
  simp [Vite001.sendMessageTrace, if_neg h]

theorem vite001_final_ok (st : ChatState) (reply : String) (h : st.input ≠ "") :
    Vite001.sendMessage st (.ok reply) =
      ⟨"", st.messages ++ [⟨"user", st.input⟩, ⟨"ai", reply⟩]⟩ := by
  simp [Vite001.sendMessage, vite001_trace_ok st reply h]

theorem vite001_final_failed (st : ChatState) (h : st.input ≠ "") :
    Vite001.sendMessage st .failed = ⟨"", st.messages ++ [⟨"user", st.input⟩]⟩ := by
  simp [Vite001.sendMessage, vite001_trace_failed st h]

/-! ### Frame property of the state updates -/

theorem frameStep_length_le (a b : ChatState) (h : frameStep a b) :
    a.messages.length ≤ b.messages.length := by
  rcases h with ⟨es, _, hb⟩ | ⟨hl, _, _⟩
  · simp [hb]
  · omega

theorem frameStep_content_only (base : List Message) (x y : String) :
    frameStep ⟨"", base ++ [⟨"ai", x⟩]⟩ ⟨"", base ++ [⟨"ai", y⟩]⟩ := by
  right
  refine ⟨by simp, by simp, by simp⟩

theorem chain_frame_map (base : List Message) (l : List String) (x : String) :
    List.Chain' frameStep
      (⟨"", base ++ [⟨"ai", x⟩]⟩ ::
        l.map (fun a => (⟨"", base ++ [⟨"ai", a⟩]⟩ : ChatState))) := by
  induction l generalizing x with
  | nil => simp
  | cons c l ih =>
      simp only [List.map_cons, List.chain'_cons]
      exact ⟨frameStep_content_only base x c, ih c⟩

theorem part000_chain (st : ChatState) (es : List ReadEvent) :
    List.Chain' frameStep (st :: Part000.sendMessageTrace st es) := by
  by_cases h : st.input = ""
  · rw [(part000_guard_eq st es h).1]
    simp
  · rw [part000_trace_eq st es h, List.chain'_cons]
    constructor
    · exact Or.inl ⟨[⟨"user", st.input⟩, ⟨"ai", ""⟩], by simp, by simp⟩
    · have hch := chain_frame_map (st.messages ++ [⟨"user", st.input⟩])
        (cumConcats "" (received es)) ""
      simpa using hch

theorem stream003_chain (st : ChatState) (es : List ReadEvent) :
    List.Chain' frameStep (st :: Stream003.sendMessageTrace st es) := by
  rw [stream003_trace_eq st es, List.chain'_cons]
  constructor
  · exact Or.inl ⟨[⟨"user", st.input⟩, ⟨"ai", ""⟩], by simp, by simp⟩
  · have hch := chain_frame_map (st.messages ++ [⟨"user", st.input⟩])
      (cumConcats "" (received es)) ""
    simpa using hch

theorem vite001_chain (st : ChatState) (o : FetchOutcome) :
    List.Chain' frameStep (st :: Vite001.sendMessageTrace st o) := by
  by_cases h : st.input = ""
  · rw [(vite001_guard_eq st o h).1]
    simp
  · cases o with
    | ok reply =>
        rw [vite001_trace_ok st reply h]
        refine List.chain'_cons.mpr ⟨Or.inl ⟨[⟨"user", st.input⟩], by simp, by simp⟩, ?_⟩
        refine List.chain'_cons.mpr ⟨Or.inl ⟨[⟨"ai", reply⟩], by simp, by simp⟩, ?_⟩
        simp
    | failed =>
        rw [vite001_trace_failed st h]
        exact List.chain'_cons.mpr ⟨Or.inl ⟨[⟨"user", st.input⟩], by simp, by simp⟩, by simp⟩

/-! ### Roles that the code can ever write -/

theorem rolesOK_append_pair (ms : List Message) (s t : String) (h : rolesOK ms) :
    rolesOK (ms ++ [⟨"user", s⟩, ⟨"ai", t⟩]) := by
  intro m hm
  rcases List.mem_append.mp hm with h1 | h2
  · exact h m h1
  · simp only [List.mem_cons, List.not_mem_nil, or_false] at h2
    rcases h2 with rfl | rfl
    · exact Or.inl rfl
    · exact Or.inr rfl

theorem rolesOK_append_user (ms : List Message) (s : String) (h : rolesOK ms) :
    rolesOK (ms ++ [⟨"user", s⟩]) := by
  intro m hm
  rcases List.mem_append.mp hm with h1 | h2
  · exact h m h1
  · simp only [List.mem_cons, List.not_mem_nil, or_false] at h2
    subst h2
    exact Or.inl rfl

theorem rolesOK_append_ai (ms : List Message) (t : String) (h : rolesOK ms) :
    rolesOK (ms ++ [⟨"ai", t⟩]) := by
  intro m hm
  rcases List.mem_append.mp hm with h1 | h2
  · exact h m h1
  · simp only [List.mem_cons, List.not_mem_nil, or_false] at h2
    subst h2
    exact Or.inr rfl

theorem part000_trace_rolesOK (st st2 : ChatState) (es : List ReadEvent)
    (h : rolesOK st.messages) (hm : st2 ∈ Part000.sendMessageTrace st es) :
    rolesOK st2.messages := by
  by_cases hi : st.input = ""
  · rw [(part000_guard_eq st es hi).1] at hm
    simp at hm
  · rw [part000_trace_eq st es hi] at hm
    rcases List.mem_cons.mp hm with rfl | hm2
    · exact rolesOK_append_pair st.messages st.input "" h
    · rcases List.mem_map.mp hm2 with ⟨a, _, rfl⟩
      exact rolesOK_append_pair st.messages st.input a h

theorem stream003_trace_rolesOK (st st2 : ChatState) (es : List ReadEvent)
    (h : rolesOK st.messages) (hm : st2 ∈ Stream003.sendMessageTrace st es) :
    rolesOK st2.messages := by
  rw [stream003_trace_eq st es] at hm
  rcases List.mem_cons.mp hm with rfl | hm2
  · exact rolesOK_append_pair st.messages st.input "" h
  · rcases List.mem_map.mp hm2 with ⟨a, _, rfl⟩
    exact rolesOK_append_pair st.messages st.input a h

theorem vite001_trace_rolesOK (st st2 : ChatState) (o : FetchOutcome)
    (h : rolesOK st.messages) (hm : st2 ∈ Vite001.sendMessageTrace st o) :
    rolesOK st2.messages := by
  by_cases hi : st.input = ""
  · rw [(vite001_guard_eq st o hi).1] at hm
    simp at hm
  · cases o with
    | ok reply =>
        rw [vite001_trace_ok st reply hi] at hm
        simp only [List.mem_cons, List.not_mem_nil, or_false] at hm
        rcases hm with rfl | rfl
        · exact rolesOK_append_user st.messages st.input h
        · exact rolesOK_append_pair st.messages st.input reply h
    | failed =>
        rw [vite001_trace_failed st hi] at hm
        simp only [List.mem_cons, List.not_mem_nil, or_false] at hm
        subst hm
        exact rolesOK_append_user st.messages st.input h

/-! ### Alternation of roles over completed submits -/

theorem Alternating.even_length {ms : List Message} (h : Alternating ms) :
    ms.length % 2 = 0 := by
  induction h with
  | nil => rfl
  | pair ms u a hu ha h ih =>
      simp only [List.length_append, List.length_cons, List.length_nil]
      omega

theorem Alternating.role_at {ms : List Message} (h : Alternating ms) :
    ∀ i (hi : i < ms.length), (ms.get ⟨i, hi⟩).role = if i % 2 = 0 then "user" else "ai" := by
  induction h with
  | nil =>
      intro i hi
      simp at hi
  | pair ms u a hu ha h ih =>
      intro i hi
      have hev := h.even_length
      have hlen : (ms ++ [u, a]).length = ms.length + 2 := by simp
      rcases Nat.lt_trichotomy i ms.length with hlt | heq | hgt
      · have hval : (ms ++ [u, a]).get ⟨i, hi⟩ = ms.get ⟨i, hlt⟩ := by
          simp only [List.get_eq_getElem]
          exact List.getElem_append_left hlt
        rw [hval]
        exact ih i hlt
      · have hmod : i % 2 = 0 := by omega
        have hval : (ms ++ [u, a]).get ⟨i, hi⟩ = u := by
          subst heq
          simp only [List.get_eq_getElem]
          rw [List.getElem_append_right (Nat.le_refl ms.length)]
          simp
        rw [hval, hmod, hu]
        simp
      · have hi2 : i = ms.length + 1 := by omega
        have hmod : i % 2 = 1 := by omega
        have hval : (ms ++ [u, a]).get ⟨i, hi⟩ = a := by
          subst hi2
          simp only [List.get_eq_getElem]
          rw [List.getElem_append_right (by omega)]
          simp
        rw [hval, hmod, ha]
        simp

theorem alternatesUA_of_alternating {ms : List Message} (h : Alternating ms) :
    alternatesUA ms :=
  ⟨h.role_at, h.even_length⟩

theorem part000_run_alternating (ops : List (String × List ReadEvent)) (st : ChatState)
    (h : Alternating st.messages) : Alternating (Part000.runSubmits st ops).messages := by
  induction ops generalizing st with
  | nil => simpa [Part000.runSubmits] using h
  | cons op rest ih =>
      obtain ⟨s, es⟩ := op
      simp only [Part000.runSubmits]
      apply ih
      by_cases hs : s = ""
      · rw [(part000_guard_eq ⟨s, st.messages⟩ es hs).2]
        exact h
      · rw [part000_final_eq ⟨s, st.messages⟩ es hs]
        exact Alternating.pair _ _ _ rfl rfl h

theorem stream003_run_alternating (ops : List (String × List ReadEvent)) (st : ChatState)
    (h : Alternating st.messages) : Alternating (Stream003.runSubmits st ops).messages := by
  induction ops generalizing st with
  | nil => simpa [Stream003.runSubmits] using h
  | cons op rest ih =>
      obtain ⟨s, es⟩ := op
      simp only [Stream003.runSubmits]
      apply ih
      rw [stream003_final_eq ⟨s, st.messages⟩ es]
      exact Alternating.pair _ _ _ rfl rfl h

theorem vite001_run_alternating (ops : List (String × String)) (st : ChatState)
    (h : Alternating st.messages) : Alternating (Vite001.runSubmits st ops).messages := by
  induction ops generalizing st with
  | nil => simpa [Vite001.runSubmits] using h
  | cons op rest ih =>
      obtain ⟨s, r⟩ := op
      simp only [Vite001.runSubmits]
      apply ih
      by_cases hs : s = ""
      · rw [(vite001_guard_eq ⟨s, st.messages⟩ (.ok r) hs).2]
        exact h
      · rw [vite001_final_ok ⟨s, st.messages⟩ r hs]
        exact Alternating.pair _ _ _ rfl rfl h

/-! ### Claim C1 -/

/-- Claim C1 as stated is false on the code: in the whole-response
variant (001-vite README) the submit-time update appends only the user
entry, one entry rather than two, and the assistant-side entry uses the
role literal ai, not assistant; the second entry of the claim appears
only after the response resolves. -/
theorem c1_counterexample :
    Vite001.sendMessageTrace ⟨"hi", []⟩ (FetchOutcome.ok "hello") =
      [⟨"", [⟨"user", "hi"⟩]⟩, ⟨"", [⟨"user", "hi"⟩, ⟨"ai", "hello"⟩]⟩] ∧
    ([(⟨"user", "hi"⟩ : Message)]).length ≠ 2 ∧
    ("ai" : String) ≠ "assistant" := by
  refine ⟨by decide, by decide, by decide⟩

/-- Claim C1 amended: for every non-empty input, the streaming variants
first append exactly two entries, role user with the input text then
role ai (the literal the code uses for the assistant side) with empty
content, before any chunk arrives; the whole-response variant appends
only the user entry before the response. -/
theorem c1_amended_appends (st : ChatState) (es : List ReadEvent) (o : FetchOutcome)
    (h : st.input ≠ "") :
    (Part000.sendMessageTrace st es).head? =
      some ⟨"", st.messages ++ [⟨"user", st.input⟩, ⟨"ai", ""⟩]⟩ ∧
    (Stream003.sendMessageTrace st es).head? =
      some ⟨"", st.messages ++ [⟨"user", st.input⟩, ⟨"ai", ""⟩]⟩ ∧
    (Vite001.sendMessageTrace st o).head? =
      some ⟨"", st.messages ++ [⟨"user", st.input⟩]⟩ := by
  refine ⟨?_, ?_, ?_⟩
  · rw [part000_trace_eq st es h]
    rfl
  · rw [stream003_trace_eq st es]
    rfl
  · cases o with
    | ok reply => rw [vite001_trace_ok st reply h]; rfl
    | failed => rw [vite001_trace_failed st h]; rfl

/-- Witness for the amended claim C1 at a concrete input. -/
theorem c1_amended_appends_witness :
    (Part000.sendMessageTrace ⟨"hi", []⟩ []).head? =
      some ⟨"", [⟨"user", "hi"⟩, ⟨"ai", ""⟩]⟩ ∧
    (Stream003.sendMessageTrace ⟨"hi", []⟩ []).head? =
      some ⟨"", [⟨"user", "hi"⟩, ⟨"ai", ""⟩]⟩ ∧
    (Vite001.sendMessageTrace ⟨"hi", []⟩ (FetchOutcome.ok "hello")).head? =
      some ⟨"", [⟨"user", "hi"⟩]⟩ :=
  c1_amended_appends ⟨"hi", []⟩ [] (FetchOutcome.ok "hello") (by decide)

/-! ### Claim C2 -/

/-- Claim C2 as stated is false on the code: a whitespace-only input is
truthy, so part_000 appends two entries and issues the call for it, and
the 003-stream variant has no guard at all, appending entries even for
the empty string. -/
theorem c2_counterexample :
    Part000.sendMessage ⟨" ", []⟩ [] = ⟨"", [⟨"user", " "⟩, ⟨"ai", ""⟩]⟩ ∧
    Part000.fetchBody ⟨" ", []⟩ = some " " ∧
    Stream003.sendMessage ⟨"", []⟩ [] = ⟨"", [⟨"user", ""⟩, ⟨"ai", ""⟩]⟩ := by
  refine ⟨by decide, by decide, by decide⟩

/-- Claim C2 amended: the empty string is a silent no-op in part_000 and
in the whole-response variant, with no transcript change and no fetch
call; the 003-stream variant has no guard and appends its two entries
and issues the call even for the empty string; whitespace-only input is
treated as ordinary non-empty input in every variant. -/
theorem c2_amended_noop (st : ChatState) (es : List ReadEvent) (o : FetchOutcome)
    (h : st.input = "") :
    Part000.sendMessageTrace st es = [] ∧
    Part000.sendMessage st es = st ∧
    Part000.fetchBody st = none ∧
    Vite001.sendMessageTrace st o = [] ∧
    Vite001.sendMessage st o = st ∧
    Vite001.fetchBody st = none ∧
    (Stream003.sendMessageTrace st es).head? =
      some ⟨"", st.messages ++ [⟨"user", ""⟩, ⟨"ai", ""⟩]⟩ ∧
    Stream003.fetchBody st = some "" := by
  refine ⟨(part000_guard_eq st es h).1, (part000_guard_eq st es h).2,
    by simp [Part000.fetchBody, h], (vite001_guard_eq st o h).1,
    (vite001_guard_eq st o h).2, by simp [Vite001.fetchBody, h], ?_, ?_⟩
  · rw [stream003_trace_eq st es, h]
    rfl
  · simp [Stream003.fetchBody, h]

/-- Witness for the amended claim C2 at a concrete input. -/
theorem c2_amended_noop_witness :
    Part000.sendMessageTrace ⟨"", []⟩ [] = [] ∧
    Part000.sendMessage ⟨"", []⟩ [] = ⟨"", []⟩ ∧
    Part000.fetchBody ⟨"", []⟩ = none ∧
    Vite001.sendMessageTrace ⟨"", []⟩ (FetchOutcome.ok "r") = [] ∧
    Vite001.sendMessage ⟨"", []⟩ (FetchOutcome.ok "r") = ⟨"", []⟩ ∧
    Vite001.fetchBody ⟨"", []⟩ = none ∧
    (Stream003.sendMessageTrace ⟨"", []⟩ []).head? =
      some ⟨"", [⟨"user", ""⟩, ⟨"ai", ""⟩]⟩ ∧
    Stream003.fetchBody ⟨"", []⟩ = some "" := by
  have h := c2_amended_noop ⟨"", []⟩ [] (FetchOutcome.ok "r") rfl
  simpa using h

/-! ### Claim C3 -/

/-- Claim C3 as stated is false on the code: after one submit the
second transcript entry has the role literal ai, which is neither user
nor assistant; the enumeration the code draws from is user and ai. -/
theorem c3_counterexample :
    (Part000.sendMessage ⟨"hi", []⟩ []).messages.map Message.role = ["user", "ai"] ∧
    ¬ (("ai" : String) = "user" ∨ ("ai" : String) = "assistant") := by
  refine ⟨by decide, by decide⟩

/-- Claim C3 amended: in every reachable state of any variant, every
transcript entry has a role drawn from the enumeration of the two
literals the code writes, user and ai (the latter being what the spec
calls the assistant role). -/
theorem c3_amended_roles (st : ChatState) (h : Reach st) : rolesOK st.messages := by
  induction h with
  | init =>
      intro m hm
      simp at hm
  | typeInput st s hr ih => exact ih
  | part000 st st2 es hr hm ih => exact part000_trace_rolesOK st st2 es ih hm
  | stream003 st st2 es hr hm ih => exact stream003_trace_rolesOK st st2 es ih hm
  | vite001 st st2 o hr hm ih => exact vite001_trace_rolesOK st st2 o ih hm

/-- Witness for the amended claim C3 at a concrete reachable state. -/
theorem c3_amended_roles_witness :
    rolesOK (⟨"", [⟨"user", "hi"⟩, ⟨"ai", ""⟩]⟩ : ChatState).messages :=
  c3_amended_roles ⟨"", [⟨"user", "hi"⟩, ⟨"ai", ""⟩]⟩
    (Reach.part000 ⟨"hi", []⟩ ⟨"", [⟨"user", "hi"⟩, ⟨"ai", ""⟩]⟩ []
      (Reach.typeInput ⟨"", []⟩ "hi" Reach.init) (by decide))

/-! ### Claim C4 -/

/-- Claim C4 as stated is false on the code: in the whole-response
variant no assistant entry is created empty at submit time, the state
after the submit-time update holds only the user entry, and the entry
appended after resolution carries the role literal ai, not assistant. -/
theorem c4_counterexample :
    (Vite001.sendMessageTrace ⟨"hi", []⟩ (FetchOutcome.ok "hello")).head? =
      some ⟨"", [⟨"user", "hi"⟩]⟩ ∧
    ([(⟨"user", "hi"⟩ : Message)].all (fun m => m.role == "user")) = true ∧
    (Vite001.sendMessage ⟨"hi", []⟩ (FetchOutcome.ok "hello")).messages.getLastD ⟨"", ""⟩ =
      ⟨"ai", "hello"⟩ ∧
    ("ai" : String) ≠ "assistant" := by
  refine ⟨by decide, by decide, by decide, by decide⟩

/-- Claim C4 amended: given a response with reply hello, the
whole-response variant performs exactly two updates, first appending the
user entry alone, then appending an entry with role ai (the literal the
code uses for the assistant) and content hello in one atomic mutation;
after resolution that entry is the last transcript entry, and no
intermediate content value of the reply is ever observable. -/
theorem c4_amended_whole_reply (st : ChatState) (h : st.input ≠ "") :
    Vite001.sendMessageTrace st (FetchOutcome.ok "hello") =
      [⟨"", st.messages ++ [⟨"user", st.input⟩]⟩,
       ⟨"", st.messages ++ [⟨"user", st.input⟩, ⟨"ai", "hello"⟩]⟩] ∧
    (Vite001.sendMessage st (FetchOutcome.ok "hello")).messages.getLastD ⟨"", ""⟩ =
      ⟨"ai", "hello"⟩ := by
  refine ⟨vite001_trace_ok st "hello" h, ?_⟩
  rw [vite001_final_ok st "hello" h]
  simp

/-- Witness for the amended claim C4 at a concrete input. -/
theorem c4_amended_whole_reply_witness :
    Vite001.sendMessageTrace ⟨"hi", []⟩ (FetchOutcome.ok "hello") =
      [⟨"", [⟨"user", "hi"⟩]⟩, ⟨"", [⟨"user", "hi"⟩, ⟨"ai", "hello"⟩]⟩] ∧
    (Vite001.sendMessage ⟨"hi", []⟩ (FetchOutcome.ok "hello")).messages.getLastD ⟨"", ""⟩ =
      ⟨"ai", "hello"⟩ := by
  have h := c4_amended_whole_reply ⟨"hi", []⟩ (by decide)
  simpa using h

theorem map_lastContent_ai (ms : List Message) (u : Message) (l : List String) :
    l.map (lastContent ∘ fun a => (⟨"", ms ++ [u, ⟨"ai", a⟩]⟩ : ChatState)) = l := by
  induction l with
  | nil => rfl
  | cons c l ih =>
      simp only [List.map_cons, ih, List.cons.injEq]
      exact ⟨by simp [lastContent], trivial⟩

/-! ### Claim C5 -/

/-- Claim C5 (confirmed): in both streaming variants, for any chunk
sequence the content of the last transcript entry passes through
exactly the values empty (at creation) followed by the running
concatenations of the chunks, one value per chunk in arrival order and
no other value; the k-th of those running values is the concatenation
of chunks 1 through k. -/
theorem c5_stream_content_sequence (st : ChatState) (cs : List String)
    (h : st.input ≠ "") :
    (Part000.sendMessageChunksTrace st cs).map lastContent = "" :: cumConcats "" cs ∧
    (Stream003.sendMessageChunksTrace st cs).map lastContent = "" :: cumConcats "" cs ∧
    cumConcats "" cs =
      (List.range cs.length).map (fun k => concatChunks (cs.take (k + 1))) := by
  refine ⟨?_, ?_, ?_⟩
  · rw [Part000.sendMessageChunksTrace, part000_trace_eq st _ h, received_map_chunk]
    simp only [List.map_cons, List.map_map]
    rw [map_lastContent_ai st.messages ⟨"user", st.input⟩ (cumConcats "" cs)]
    simp [lastContent]
  · rw [Stream003.sendMessageChunksTrace, stream003_trace_eq st _, received_map_chunk]
    simp only [List.map_cons, List.map_map]
    rw [map_lastContent_ai st.messages ⟨"user", st.input⟩ (cumConcats "" cs)]
    simp [lastContent]
  · rw [cumConcats_eq_map_range]
    exact List.map_congr_left (fun k _ => String.empty_append _)

/-- Witness for claim C5 at the concrete chunk sequence of the spec. -/
theorem c5_stream_content_sequence_witness :
    (Part000.sendMessageChunksTrace ⟨"hi", []⟩ ["He", "llo"]).map lastContent =
      ["", "He", "Hello"] ∧
    (Stream003.sendMessageChunksTrace ⟨"hi", []⟩ ["He", "llo"]).map lastContent =
      ["", "He", "Hello"] := by
  have h := c5_stream_content_sequence ⟨"hi", []⟩ ["He", "llo"] (by decide)
  exact ⟨by rw [h.1]; decide, by rw [h.2.1]; decide⟩

/-! ### Claim C6 -/

/-- Claim C6 (confirmed): in both streaming variants the final state of
a submit against a fresh session depends only on the concatenation of
the decoded chunks, not on where the chunk boundaries fall. -/
theorem c6_chunk_granularity_independent (s : String) (cs cs2 : List String)
    (h : s ≠ "") (heq : concatChunks cs = concatChunks cs2) :
    Part000.sendMessageChunks ⟨s, []⟩ cs = Part000.sendMessageChunks ⟨s, []⟩ cs2 ∧
    Stream003.sendMessageChunks ⟨s, []⟩ cs = Stream003.sendMessageChunks ⟨s, []⟩ cs2 := by
  constructor
  · rw [Part000.sendMessageChunks, Part000.sendMessageChunks,
      part000_final_eq _ _ h, part000_final_eq _ _ h,
      received_map_chunk, received_map_chunk, heq]
  · rw [Stream003.sendMessageChunks, Stream003.sendMessageChunks,
      stream003_final_eq, stream003_final_eq,
      received_map_chunk, received_map_chunk, heq]

/-- Witness for claim C6: the two chunkings of Hello from the spec give
the same final state, whose last entry holds Hello. -/
theorem c6_chunk_granularity_independent_witness :
    (Part000.sendMessageChunks ⟨"hi", []⟩ ["He", "llo"] =
       Part000.sendMessageChunks ⟨"hi", []⟩ ["H", "e", "l", "l", "o"] ∧
     Stream003.sendMessageChunks ⟨"hi", []⟩ ["He", "llo"] =
       Stream003.sendMessageChunks ⟨"hi", []⟩ ["H", "e", "l", "l", "o"]) ∧
    Part000.sendMessageChunks ⟨"hi", []⟩ ["He", "llo"] =
      ⟨"", [⟨"user", "hi"⟩, ⟨"ai", "Hello"⟩]⟩ :=
  ⟨c6_chunk_granularity_independent "hi" ["He", "llo"] ["H", "e", "l", "l", "o"]
    (by decide) (by decide), by decide⟩

/-! ### Claim C7 -/

/-- Claim C7 as stated is false on the code: after one completed submit
the roles are user then ai, and ai is not the literal assistant, so the
entries do not alternate user, assistant as claimed. -/
theorem c7_counterexample :
    (Part000.runSubmits ⟨"", []⟩ [("hi", [])]).messages.map Message.role = ["user", "ai"] ∧
    ("ai" : String) ≠ "assistant" := by
  refine ⟨by decide, by decide⟩

/-- Claim C7 amended: for any sequence of completed, non-overlapping
submits in any variant (streaming submits with any read events, whole
response submits whose fetch resolves), the transcript entries
alternate the role literals user, ai, user, ai from index 0 and the
transcript consists of whole turns, so a non-empty transcript begins
with a user entry immediately followed by its paired ai entry. -/
theorem c7_amended_alternation (ops1 ops2 : List (String × List ReadEvent))
    (ops3 : List (String × String)) :
    alternatesUA (Part000.runSubmits ⟨"", []⟩ ops1).messages ∧
    alternatesUA (Stream003.runSubmits ⟨"", []⟩ ops2).messages ∧
    alternatesUA (Vite001.runSubmits ⟨"", []⟩ ops3).messages :=
  ⟨alternatesUA_of_alternating (part000_run_alternating ops1 ⟨"", []⟩ Alternating.nil),
   alternatesUA_of_alternating (stream003_run_alternating ops2 ⟨"", []⟩ Alternating.nil),
   alternatesUA_of_alternating (vite001_run_alternating ops3 ⟨"", []⟩ Alternating.nil)⟩

/-! ### Claim C8 -/

/-- Claim C8 (confirmed): along every sendMessage run of every variant,
each state update either appends entries at the end or changes only the
content of the last entry (keeping length, every earlier entry, and the
role of the last entry), and the transcript length never decreases. -/
theorem c8_frame_property (st : ChatState) (es es2 : List ReadEvent) (o : FetchOutcome) :
    List.Chain' frameStep (st :: Part000.sendMessageTrace st es) ∧
    List.Chain' frameStep (st :: Stream003.sendMessageTrace st es2) ∧
    List.Chain' frameStep (st :: Vite001.sendMessageTrace st o) ∧
    List.Chain' (fun a b => a.messages.length ≤ b.messages.length)
      (st :: Part000.sendMessageTrace st es) ∧
    List.Chain' (fun a b => a.messages.length ≤ b.messages.length)
      (st :: Stream003.sendMessageTrace st es2) ∧
    List.Chain' (fun a b => a.messages.length ≤ b.messages.length)
      (st :: Vite001.sendMessageTrace st o) :=
  ⟨part000_chain st es, stream003_chain st es2, vite001_chain st o,
   (part000_chain st es).imp frameStep_length_le,
   (stream003_chain st es2).imp frameStep_length_le,
   (vite001_chain st o).imp frameStep_length_le⟩

/-! ### Claim C9 -/

/-- Claim C9 as stated is false on the code: in the whole-response
variant a fetch failure leaves only the user entry in the transcript,
with no paired assistant entry of any role at all. -/
theorem c9_counterexample :
    Vite001.sendMessage ⟨"hi", []⟩ FetchOutcome.failed = ⟨"", [⟨"user", "hi"⟩]⟩ ∧
    ([(⟨"user", "hi"⟩ : Message)].all (fun m => m.role == "user")) = true := by
  refine ⟨by decide, by decide⟩

/-- Claim C9 amended: failures are unhandled and cause no recovery
mutation: in the streaming variants a stream error after some chunks
leaves the user entry and its paired ai entry holding exactly the
chunks received before the failure, with the input cleared and the
events after the error ignored; in the whole-response variant a
rejected call leaves only the user entry, with the input cleared. -/
theorem c9_amended_failure (st : ChatState) (cs : List String) (junk : List ReadEvent)
    (h : st.input ≠ "") :
    Part000.sendMessage st (cs.map ReadEvent.chunk ++ ReadEvent.errored :: junk) =
      ⟨"", st.messages ++ [⟨"user", st.input⟩, ⟨"ai", concatChunks cs⟩]⟩ ∧
    Stream003.sendMessage st (cs.map ReadEvent.chunk ++ ReadEvent.errored :: junk) =
      ⟨"", st.messages ++ [⟨"user", st.input⟩, ⟨"ai", concatChunks cs⟩]⟩ ∧
    Vite001.sendMessage st FetchOutcome.failed =
      ⟨"", st.messages ++ [⟨"user", st.input⟩]⟩ := by
  refine ⟨?_, ?_, vite001_final_failed st h⟩
  · rw [part000_final_eq st _ h, received_fail]
  · rw [stream003_final_eq st _, received_fail]

/-- Witness for the amended claim C9 at a concrete input. -/
theorem c9_amended_failure_witness :
    Part000.sendMessage ⟨"hi", []⟩ [ReadEvent.chunk "He", ReadEvent.errored] =
      ⟨"", [⟨"user", "hi"⟩, ⟨"ai", "He"⟩]⟩ ∧
    Stream003.sendMessage ⟨"hi", []⟩ [ReadEvent.chunk "He", ReadEvent.errored] =
      ⟨"", [⟨"user", "hi"⟩, ⟨"ai", "He"⟩]⟩ ∧
    Vite001.sendMessage ⟨"hi", []⟩ FetchOutcome.failed = ⟨"", [⟨"user", "hi"⟩]⟩ := by
  have h := c9_amended_failure ⟨"hi", []⟩ ["He"] [] (by decide)
  simpa [concatChunks] using h

/-! ### Claim C10 -/

/-- Claim C10 (confirmed): for the same non-empty input and the same
chunk sequence, the in-place content update loop of part_000 and the
replace-the-last-element loop of 003-stream produce the identical
sequence of transcript states and the same final state. -/
theorem c10_loop_equivalence (st : ChatState) (cs : List String) (h : st.input ≠ "") :
    Part000.sendMessageChunksTrace st cs = Stream003.sendMessageChunksTrace st cs ∧
    Part000.sendMessageChunks st cs = Stream003.sendMessageChunks st cs := by
  constructor
  · rw [Part000.sendMessageChunksTrace, Stream003.sendMessageChunksTrace,
      part000_trace_eq st _ h, stream003_trace_eq st _]
  · rw [Part000.sendMessageChunks, Stream003.sendMessageChunks,
      part000_final_eq st _ h, stream003_final_eq st _]

/-- Witness for claim C10 at a concrete input and chunk sequence. -/
theorem c10_loop_equivalence_witness :
    Part000.sendMessageChunksTrace ⟨"hi", []⟩ ["He", "llo"] =
      Stream003.sendMessageChunksTrace ⟨"hi", []⟩ ["He", "llo"] ∧
    Part000.sendMessageChunks ⟨"hi", []⟩ ["He", "llo"] =
      Stream003.sendMessageChunks ⟨"hi", []⟩ ["He", "llo"] :=
  c10_loop_equivalence ⟨"hi", []⟩ ["He", "llo"] (by decide)
